import Mathlib

/-!
Shallow embedding of
`x-pack/plugins/cross_cluster_replication/public/app/components/follower_index_form/follower_index_form.js`.

Plain JavaScript objects whose values all have one type are modelled as
association lists (`Obj V`).  A key that is absent from the list corresponds to
an absent property; for the error map, a key present with value `none`
corresponds to a property explicitly set to `undefined` (or `null`), which the
source treats as absence of an error while still shadowing older entries on a
spread merge.
-/

set_option autoImplicit false

/-- A JavaScript object with string keys and values of type `V`. -/
abbrev Obj (V : Type) := List (String × V)

/-- Property read `o[k]`: the first entry with key `k`, if any. -/
def Obj.get {V : Type} : Obj V → String → Option V
  | [], _ => none
  | p :: rest, k => if p.1 = k then some p.2 else Obj.get rest k

/-- The `k in o` test. -/
def Obj.hasKey {V : Type} (o : Obj V) (k : String) : Bool :=
  (Obj.get o k).isSome

/-- Property assignment `o[k] = v`: overwrite the entry if present, append otherwise. -/
def Obj.set {V : Type} : Obj V → String → V → Obj V
  | [], k, v => [(k, v)]
  | p :: rest, k, v => if p.1 = k then (k, v) :: rest else p :: Obj.set rest k v

/-- The spread merge `\x7b ...a, ...b \x7d`: keys of `a` keep their position but take
the value from `b` when `b` also has the key; keys only in `b` are appended. -/
def Obj.merge {V : Type} (a b : Obj V) : Obj V :=
  (a.map fun p => (p.1, (Obj.get b p.1).getD p.2)) ++
    (b.filter fun p => !(Obj.hasKey a p.1))

/-- The rest pattern `const \x7b k, ...rest \x7d = o`: all entries except key `k`. -/
def Obj.removeKey {V : Type} (o : Obj V) (k : String) : Obj V :=
  o.filter fun p => p.1 != k

theorem Obj.get_nil {V : Type} (k : String) : Obj.get ([] : Obj V) k = none := rfl

theorem Obj.get_cons {V : Type} (p : String × V) (o : Obj V) (k : String) :
    Obj.get (p :: o) k = if p.1 = k then some p.2 else Obj.get o k := rfl

theorem Obj.get_eq_none_iff {V : Type} (o : Obj V) (k : String) :
    Obj.get o k = none ↔ ∀ p ∈ o, p.1 ≠ k := by
  induction o with
  | nil => simp [Obj.get]
  | cons p rest ih =>
    by_cases h : p.1 = k <;> simp [Obj.get, h, ih]

theorem Obj.mem_of_get_eq_some {V : Type} {o : Obj V} {k : String} {v : V}
    (h : Obj.get o k = some v) : (k, v) ∈ o := by
  induction o with
  | nil => simp [Obj.get] at h
  | cons p rest ih =>
    rw [Obj.get_cons] at h
    by_cases hk : p.1 = k
    · simp [hk] at h
      have hp : p = (k, v) := by
        cases p
        simp only at hk h
        simp [hk, h]
      rw [← hp]
      exact List.mem_cons_self p rest
    · simp [hk] at h
      exact List.mem_cons_of_mem p (ih h)

theorem Obj.get_set_self {V : Type} (o : Obj V) (k : String) (v : V) :
    Obj.get (Obj.set o k v) k = some v := by
  induction o with
  | nil => simp [Obj.set, Obj.get]
  | cons p rest ih =>
    by_cases h : p.1 = k <;> simp [Obj.set, Obj.get, h, ih]

theorem Obj.get_set_ne {V : Type} (o : Obj V) (k k' : String) (v : V)
    (h : k' ≠ k) : Obj.get (Obj.set o k v) k' = Obj.get o k' := by
  induction o with
  | nil => simp [Obj.set, Obj.get, Ne.symm h]
  | cons p rest ih =>
    by_cases hp : p.1 = k
    · have hk' : ¬ (k = k') := Ne.symm h
      have hpk' : ¬ (p.1 = k') := by rw [hp]; exact hk'
      simp [Obj.set, Obj.get, hp, hk', hpk']
    · by_cases hq : p.1 = k' <;> simp [Obj.set, Obj.get, hp, hq, ih, h]

theorem Obj.get_append {V : Type} (a b : Obj V) (k : String) :
    Obj.get (a ++ b) k =
      (match Obj.get a k with
       | some v => some v
       | none => Obj.get b k) := by
  induction a with
  | nil => simp [Obj.get]
  | cons p rest ih =>
    by_cases h : p.1 = k <;> simp [Obj.get, h, ih]

theorem Obj.get_map_merge {V : Type} (b o : Obj V) (k : String) :
    Obj.get (o.map fun p => (p.1, (Obj.get b p.1).getD p.2)) k =
      (Obj.get o k).map fun v => (Obj.get b k).getD v := by
  induction o with
  | nil => simp [Obj.get]
  | cons p rest ih =>
    by_cases h : p.1 = k
    · subst h
      simp [Obj.get, ih]
    · simp [Obj.get, h, ih]

theorem Obj.get_filter_key {V : Type} (q : String → Bool) (o : Obj V) (k : String) :
    Obj.get (o.filter fun p => q p.1) k =
      (if q k then Obj.get o k else none) := by
  induction o with
  | nil => simp [Obj.get]
  | cons p rest ih =>
    by_cases hk : p.1 = k
    · subst hk
      by_cases hq : q p.1 <;> simp [Obj.get, hq, ih]
    · by_cases hq : q p.1 <;> simp [Obj.get, hq, hk, ih]

theorem Obj.get_merge_of_isSome {V : Type} (a b : Obj V) (k : String)
    (h : (Obj.get b k).isSome = true) :
    Obj.get (Obj.merge a b) k = Obj.get b k := by
  obtain ⟨w, hw⟩ := Option.isSome_iff_exists.mp h
  unfold Obj.merge
  rw [Obj.get_append, Obj.get_map_merge]
  cases ha : Obj.get a k with
  | some v => simp [ha, hw]
  | none =>
    rw [Obj.get_filter_key (fun kk => !(Obj.hasKey a kk))]
    simp [Obj.hasKey, ha, hw]

theorem Obj.get_merge_of_eq_none {V : Type} (a b : Obj V) (k : String)
    (h : Obj.get b k = none) :
    Obj.get (Obj.merge a b) k = Obj.get a k := by
  unfold Obj.merge
  rw [Obj.get_append, Obj.get_map_merge]
  cases ha : Obj.get a k with
  | some v => simp [ha, h]
  | none =>
    rw [Obj.get_filter_key (fun kk => !(Obj.hasKey a kk))]
    simp [Obj.hasKey, ha, h]

theorem Obj.merge_nil_left {V : Type} (b : Obj V) : Obj.merge [] b = b := by
  unfold Obj.merge
  simp [Obj.hasKey, Obj.get]

theorem Obj.get_removeKey_self {V : Type} (o : Obj V) (k : String) :
    Obj.get (Obj.removeKey o k) k = none := by
  unfold Obj.removeKey
  rw [Obj.get_filter_key (fun kk => kk != k)]
  simp

theorem Obj.get_removeKey_ne {V : Type} (o : Obj V) (k k' : String) (h : k' ≠ k) :
    Obj.get (Obj.removeKey o k) k' = Obj.get o k' := by
  unfold Obj.removeKey
  rw [Obj.get_filter_key (fun kk => kk != k)]
  simp [h]

theorem Obj.hasKey_removeKey_self {V : Type} (o : Obj V) (k : String) :
    Obj.hasKey (Obj.removeKey o k) k = false := by
  simp [Obj.hasKey, Obj.get_removeKey_self]

/-! ## Data model of the form -/

/-- A field error descriptor, as produced by a validator or by the
asynchronous name-collision check (`message` plus the optional
`alwaysVisible` flag).  The source stores `undefined` for the absence of an
error; that is modelled as `none` at the use sites (`Option ErrorDesc`). -/
structure ErrorDesc where
  message : String
  alwaysVisible : Bool := false
deriving DecidableEq

/-- A synchronous field validator: candidate value in, optional error out.
The concrete validators (`indexNameValidator`, `leaderIndexValidator` from
`services/input_validation`, and the per-field validators contributed by
`advanced_settings_fields`) live in modules that are not part of src/;
per the spec they are pure value-to-optional-error functions, so the
development quantifies over them. -/
abbrev Validator := String → Option ErrorDesc

/-- Modelled from the spec: one entry of `advancedSettingsFields` (module
`./advanced_settings_fields`, not under src/).  Only the `field` name and the
`validator` are behaviorally relevant; `title`, `description`, `label` and
`helpText` are presentation text. -/
structure AdvancedSetting where
  field : String
  validator : Validator

/-- Modelled from the spec: `emptyAdvancedSettings` (module
`./advanced_settings_fields`, not under src/) maps every advanced-setting
field to the empty sentinel value, which the toggle code in src/ compares
against the empty string. -/
def emptyAdvancedSettings (adv : List AdvancedSetting) : Obj String :=
  adv.map fun a => (a.field, "")

/-- The `fieldToValidatorMap` constant: a reduce over `advancedSettingsFields`
assigning each advanced field its validator, starting from the object holding
the two built-in entries for `name` and `leaderIndex`. -/
def fieldToValidatorMap (indexNameValidator leaderIndexValidator : Validator)
    (adv : List AdvancedSetting) : Obj Validator :=
  adv.foldl (fun map a => Obj.set map a.field a.validator)
    [("name", indexNameValidator), ("leaderIndex", leaderIndexValidator)]

/-- The `getEmptyFollowerIndex` helper: identity fields at their defaults,
spread with `emptyAdvancedSettings`. -/
def getEmptyFollowerIndex (adv : List AdvancedSetting)
    (remoteClusterName : String := "") : Obj String :=
  Obj.merge [("name", ""), ("remoteCluster", remoteClusterName), ("leaderIndex", "")]
    (emptyAdvancedSettings adv)

/-- The component state.  `cachedAdvancedSettings` starts absent in the
source and is first written by the toggle; an absent cache spreads like an
empty object, so it is modelled as initially `[]`. -/
structure FormState where
  isNew : Bool
  followerIndex : Obj String
  fieldsErrors : Obj (Option ErrorDesc)
  areErrorsVisible : Bool
  areAdvancedSettingsVisible : Bool
  isValidatingIndexName : Bool
  cachedAdvancedSettings : Obj String
deriving DecidableEq

/-! ## State transitions -/

/-- The exported `updateFields` transition: spread-merge the partial fields
into `followerIndex`. -/
def updateFields (fields followerIndex : Obj String) : Obj String :=
  Obj.merge followerIndex fields

/-- The exported `updateFormErrors` transition: spread-merge the errors
update into `fieldsErrors`. -/
def updateFormErrors (errors fieldsErrors : Obj (Option ErrorDesc)) :
    Obj (Option ErrorDesc) :=
  Obj.merge fieldsErrors errors

/-- One step of the reduce inside `getFieldsErrors`: when the field has a
registered validator the errors accumulator gets the key assigned (possibly
to `undefined`, modelled as `none`); otherwise the accumulator is untouched. -/
def gfeStep (vmap : Obj Validator) (errors : Obj (Option ErrorDesc))
    (p : String × String) : Obj (Option ErrorDesc) :=
  match Obj.get vmap p.1 with
  | some validator => Obj.set errors p.1 (validator p.2)
  | none => errors

/-- The `getFieldsErrors` method: reduce over the keys of `newFields`. -/
def getFieldsErrors (vmap : Obj Validator) (newFields : Obj String) :
    Obj (Option ErrorDesc) :=
  newFields.foldl (gfeStep vmap) []

/-- The `onFieldsChange` method.  In the source, `this.state.fields` does not
exist (the state key is `followerIndex`), so the spread
`\x7b ...this.state.fields, ...fields \x7d` contributes nothing on the left; the
embedding keeps that spread as a merge with the empty object.  The returned
flag records whether `clearApiError()` was invoked, which happens exactly
when `this.props.apiError` is truthy (`apiErrorPresent`). -/
def onFieldsChange (vmap : Obj Validator) (apiErrorPresent : Bool)
    (s : FormState) (fields : Obj String) : FormState × Bool :=
  let s1 := { s with followerIndex := updateFields fields s.followerIndex }
  let newFields := Obj.merge [] fields
  let s2 := { s1 with
    fieldsErrors := updateFormErrors (getFieldsErrors vmap newFields) s1.fieldsErrors }
  (s2, apiErrorPresent)

/-- The guard `!name || !name.trim()` of `onIndexNameChange`: the name is
falsy (empty) or trims to the empty string, i.e. every character is
whitespace.  Stated over the character list so that it evaluates. -/
def isBlankName (name : String) : Bool :=
  name == "" || name.data.all Char.isWhitespace

/-- The `onIndexNameChange` method.  Result components: the new state, the
`clearApiError` flag forwarded from `onFieldsChange`, and whether the
debounced `validateIndexName` call was scheduled. -/
def onIndexNameChange (vmap : Obj Validator) (apiErrorPresent : Bool)
    (s : FormState) (name : String) : FormState × Bool × Bool :=
  let r := onFieldsChange vmap apiErrorPresent s [("name", name)]
  if isBlankName name then
    ({ r.1 with isValidatingIndexName := false }, r.2, false)
  else
    ({ r.1 with isValidatingIndexName := true }, r.2, true)

/-- One entry of the list returned by `loadIndices()`. -/
structure IndexEntry where
  name : String
deriving DecidableEq

/-- The sticky error stored when the candidate name collides with an existing
index.  The source message is localized text; its identity is irrelevant,
only the `alwaysVisible` flag is observed. -/
def indexAlreadyExistsError : ErrorDesc :=
  { message := "An index with the same name already exists.", alwaysVisible := true }

/-- The success path of `validateIndexName`: `loadIndices()` resolved with
`indices`.  When some entry has the candidate name, the sticky error is
merged under the `name` key; afterwards the validating indicator is cleared
in every case. -/
def validateIndexNameSuccess (s : FormState) (name : String)
    (indices : List IndexEntry) : FormState :=
  let doesExist := indices.any fun index => index.name = name
  let s1 :=
    if doesExist then
      { s with fieldsErrors :=
          updateFormErrors [("name", some indexAlreadyExistsError)] s.fieldsErrors }
    else s
  { s1 with isValidatingIndexName := false }

/-- A rejection value observed by the catch block of `validateIndexName`.
`hasData` is the truthiness of `error && error.data`, i.e. whether the error
carries a structured payload in the shape provided by the Angular http
service. -/
structure JsError where
  hasData : Bool
deriving DecidableEq

/-- The catch block of `validateIndexName`.  When the error has a structured
payload the validating indicator is cleared; the call to `fatalError` is NOT
guarded by an early return in the source, so it executes on every path.  The
returned flag records whether `fatalError` was invoked. -/
def validateIndexNameFailure (s : FormState) (error : JsError) :
    FormState × Bool :=
  let s1 :=
    if error.hasData then { s with isValidatingIndexName := false } else s
  (s1, true)

/-- The cache built while hiding advanced settings: a reduce over
`advancedSettingsFields` keeping only the non-empty values.  In the source an
advanced field absent from the record would be cached as an explicit
`undefined`; every record this form constructs contains all advanced fields
(the constructor spreads `emptyAdvancedSettings`), so the embedding reads the
present value. -/
def buildAdvancedCache (adv : List AdvancedSetting) (fields : Obj String) :
    Obj String :=
  adv.foldl
    (fun cache a =>
      match Obj.get fields a.field with
      | some value => if value = "" then cache else Obj.set cache a.field value
      | none => cache)
    []

/-- The `toggleAdvancedSettings` method.  Visible: snapshot the non-empty
advanced values, blank all advanced fields through `onFieldsChange`, hide the
section and store the cache.  Hidden: restore the cached values through
`onFieldsChange`, show the section and clear the cache.  The returned flag
forwards the `clearApiError` flag of the inner `onFieldsChange`. -/
def toggleAdvancedSettings (vmap : Obj Validator) (adv : List AdvancedSetting)
    (apiErrorPresent : Bool) (s : FormState) : FormState × Bool :=
  if s.areAdvancedSettingsVisible then
    let fields := s.followerIndex
    let newCachedAdvancedSettings := buildAdvancedCache adv fields
    let r := onFieldsChange vmap apiErrorPresent s (emptyAdvancedSettings adv)
    ({ r.1 with
        areAdvancedSettingsVisible := false,
        cachedAdvancedSettings := newCachedAdvancedSettings }, r.2)
  else
    let r := onFieldsChange vmap apiErrorPresent s s.cachedAdvancedSettings
    ({ r.1 with
        areAdvancedSettingsVisible := true,
        cachedAdvancedSettings := [] }, r.2)

/-- The `isFormValid` method: every value of `fieldsErrors` is `undefined` or
`null` (both modelled as `none`). -/
def isFormValid (s : FormState) : Bool :=
  s.fieldsErrors.all fun p => p.2.isNone

/-- The `sendForm` method.  The second component is the argument pair passed
to `saveFollowerIndex`, or `none` when the callback is not invoked.  The
first argument mirrors the destructured `name` property (an absent property
reads as `undefined`, hence `Option String`), the second the rest object
without the `name` key. -/
def sendForm (s : FormState) : FormState × Option (Option String × Obj String) :=
  let valid := isFormValid s
  let s1 := { s with areErrorsVisible := !valid }
  if valid then
    (s1, some (Obj.get s.followerIndex "name", Obj.removeKey s.followerIndex "name"))
  else
    (s1, none)

/-! ## Initialization and rendering of api errors -/

/-- One entry of the `remoteClusters` prop (name plus connection status). -/
structure RemoteCluster where
  name : String
  isConnected : Bool
deriving DecidableEq

/-- Modelled from the spec: `getRemoteClusterName`
(`services/get_remote_cluster_name`, not under src/) resolves the
query-string cluster parameter by exact-name match against the supplied
cluster list; absence of a match (or of the parameter) yields the empty
selection. -/
def getRemoteClusterName (remoteClusters : List RemoteCluster)
    (clusterParam : Option String) : String :=
  match clusterParam with
  | some c => if remoteClusters.any fun rc => rc.name = c then c else ""
  | none => ""

/-- The constructor.  `existing` is the optional `followerIndex` prop;
`clusterParam` is the `cluster` value extracted from the query string by the
external `extractQueryParams` helper. -/
def initForm (vmap : Obj Validator) (adv : List AdvancedSetting)
    (remoteClusters : List RemoteCluster) (clusterParam : Option String)
    (existing : Option (Obj String)) : FormState :=
  let isNew := existing.isNone
  let remoteClusterName := getRemoteClusterName remoteClusters clusterParam
  let followerIndex :=
    match existing with
    | none => getEmptyFollowerIndex adv remoteClusterName
    | some record => Obj.merge (getEmptyFollowerIndex adv) record
  { isNew := isNew,
    followerIndex := followerIndex,
    fieldsErrors := getFieldsErrors vmap followerIndex,
    areErrorsVisible := false,
    areAdvancedSettingsVisible := if isNew then false else true,
    isValidatingIndexName := false,
    cachedAdvancedSettings := [] }

/-- The `apiError` prop as far as `renderApiErrors` inspects it: the HTTP
status plus the rest of the payload, abstracted as a string. -/
structure ApiError where
  status : Nat
  payload : String
deriving DecidableEq

/-- The submission-level error section handed to `SectionError`, either the
rewritten leader-index descriptor or the unmodified api error. -/
inductive RenderedApiError where
  | rewritten (message : String)
  | original (e : ApiError)
deriving DecidableEq

/-- The message of the rewritten 404 descriptor.  The source interpolates the
current leader index value into localized text (wrapping it in single
quotes); interpolating an absent property would print undefined, and the
embedding reads the property with an empty default. -/
def leaderIndexNotFoundMessage (leaderIndex : String) : String :=
  "The leader index " ++ leaderIndex ++ " you want to replicate from does not exist."

/-- The `renderApiErrors` method: nothing without an api error; with one, a
section whose error is rewritten exactly when the status is 404. -/
def renderApiErrors (apiError : Option ApiError) (s : FormState) :
    Option RenderedApiError :=
  match apiError with
  | none => none
  | some e =>
    let leaderIndex := (Obj.get s.followerIndex "leaderIndex").getD ""
    if e.status = 404 then
      some (RenderedApiError.rewritten (leaderIndexNotFoundMessage leaderIndex))
    else
      some (RenderedApiError.original e)

/-! ## Concrete fixtures used by the witness theorems -/

/-- A validator rejecting only the empty value. -/
def requiredValidator : Validator :=
  fun v => if v = "" then some { message := "Required", alwaysVisible := false } else none

/-- A sample advanced setting. -/
def advMax : AdvancedSetting :=
  { field := "maxReadRequestOperationCount", validator := fun _ => none }

/-- The validator table over the sample field definitions. -/
def sampleVmap : Obj Validator :=
  fieldToValidatorMap requiredValidator requiredValidator [advMax]

/-- A sample state: a filled-in valid form with advanced settings visible. -/
def sampleState : FormState :=
  { isNew := true,
    followerIndex :=
      [("name", "orders-follower"), ("remoteCluster", "cluster-a"),
       ("leaderIndex", "orders"), ("maxReadRequestOperationCount", "42")],
    fieldsErrors := [("name", none), ("leaderIndex", none)],
    areErrorsVisible := false,
    areAdvancedSettingsVisible := true,
    isValidatingIndexName := false,
    cachedAdvancedSettings := [] }

/-- A sample state with an advanced field holding the empty sentinel. -/
def sampleStateEmptyAdv : FormState :=
  { sampleState with
    followerIndex :=
      [("name", "orders-follower"), ("remoteCluster", "cluster-a"),
       ("leaderIndex", "orders"), ("maxReadRequestOperationCount", "")] }

/-! ## Helper lemmas about the folds in the source -/

theorem onFieldsChange_fst_followerIndex (vmap : Obj Validator) (b : Bool)
    (s : FormState) (u : Obj String) :
    (onFieldsChange vmap b s u).1.followerIndex = Obj.merge s.followerIndex u := rfl

theorem onFieldsChange_fst_fieldsErrors (vmap : Obj Validator) (b : Bool)
    (s : FormState) (u : Obj String) :
    (onFieldsChange vmap b s u).1.fieldsErrors =
      Obj.merge s.fieldsErrors (getFieldsErrors vmap (Obj.merge [] u)) := rfl

theorem onFieldsChange_fst_cachedAdvancedSettings (vmap : Obj Validator) (b : Bool)
    (s : FormState) (u : Obj String) :
    (onFieldsChange vmap b s u).1.cachedAdvancedSettings =
      s.cachedAdvancedSettings := rfl

theorem onFieldsChange_fst_areAdvancedSettingsVisible (vmap : Obj Validator) (b : Bool)
    (s : FormState) (u : Obj String) :
    (onFieldsChange vmap b s u).1.areAdvancedSettingsVisible =
      s.areAdvancedSettingsVisible := rfl

theorem onFieldsChange_snd (vmap : Obj Validator) (b : Bool)
    (s : FormState) (u : Obj String) :
    (onFieldsChange vmap b s u).2 = b := rfl

theorem gfeFold_get_of_vmap_none (vmap : Obj Validator) (fields : Obj String)
    (acc : Obj (Option ErrorDesc)) (k : String) (h : Obj.get vmap k = none) :
    Obj.get (fields.foldl (gfeStep vmap) acc) k = Obj.get acc k := by
  induction fields generalizing acc with
  | nil => rfl
  | cons p rest ih =>
    rw [List.foldl_cons, ih]
    unfold gfeStep
    cases hv : Obj.get vmap p.1 with
    | none => rfl
    | some f =>
      have hne : p.1 ≠ k := by
        intro he
        rw [he, h] at hv
        cases hv
      exact Obj.get_set_ne acc p.1 k (f p.2) (Ne.symm hne)

theorem gfeFold_get_of_fields_none (vmap : Obj Validator) (fields : Obj String)
    (acc : Obj (Option ErrorDesc)) (k : String) (h : Obj.get fields k = none) :
    Obj.get (fields.foldl (gfeStep vmap) acc) k = Obj.get acc k := by
  induction fields generalizing acc with
  | nil => rfl
  | cons p rest ih =>
    rw [Obj.get_cons] at h
    by_cases hp : p.1 = k
    · simp [hp] at h
    · simp only [hp, if_false] at h
      rw [List.foldl_cons, ih _ h]
      unfold gfeStep
      cases hv : Obj.get vmap p.1 with
      | none => rfl
      | some f => exact Obj.get_set_ne acc p.1 k (f p.2) (Ne.symm hp)

theorem gfeFold_get_of_mem (vmap : Obj Validator) (fields : Obj String)
    (acc : Obj (Option ErrorDesc)) (k : String) (v : String) (f : Validator)
    (hnd : (fields.map Prod.fst).Nodup) (hm : (k, v) ∈ fields)
    (hv : Obj.get vmap k = some f) :
    Obj.get (fields.foldl (gfeStep vmap) acc) k = some (f v) := by
  induction fields generalizing acc with
  | nil => cases hm
  | cons p rest ih =>
    rw [List.map_cons, List.nodup_cons] at hnd
    rw [List.foldl_cons]
    rcases List.mem_cons.mp hm with he | hr
    · subst he
      have hrest : Obj.get rest k = none := by
        rw [Obj.get_eq_none_iff]
        intro q hq hqk
        exact hnd.1 (List.mem_map.mpr ⟨q, hq, hqk⟩)
      rw [gfeFold_get_of_fields_none vmap rest _ k hrest]
      have hstep : gfeStep vmap acc (k, v) = Obj.set acc k (f v) := by
        unfold gfeStep
        simp [hv]
      rw [hstep]
      exact Obj.get_set_self acc k (f v)
    · exact ih (gfeStep vmap acc p) hnd.2 hr

theorem fvmFold_get_of_not_mem (adv : List AdvancedSetting) (init : Obj Validator)
    (k : String) (h : ∀ a ∈ adv, a.field ≠ k) :
    Obj.get (adv.foldl (fun m a => Obj.set m a.field a.validator) init) k =
      Obj.get init k := by
  induction adv generalizing init with
  | nil => rfl
  | cons a rest ih =>
    rw [List.foldl_cons, ih _ fun b hb => h b (List.mem_cons_of_mem a hb)]
    exact Obj.get_set_ne init a.field k a.validator
      (Ne.symm (h a (List.mem_cons_self a rest)))

theorem fvmFold_get_of_mem (adv : List AdvancedSetting) (init : Obj Validator)
    (a : AdvancedSetting) (hnd : (adv.map AdvancedSetting.field).Nodup)
    (ha : a ∈ adv) :
    Obj.get (adv.foldl (fun m x => Obj.set m x.field x.validator) init) a.field =
      some a.validator := by
  induction adv generalizing init with
  | nil => cases ha
  | cons b rest ih =>
    rw [List.map_cons, List.nodup_cons] at hnd
    rw [List.foldl_cons]
    rcases List.mem_cons.mp ha with he | hr
    · subst he
      have hrest : ∀ x ∈ rest, x.field ≠ a.field := by
        intro x hx hxf
        exact hnd.1 (List.mem_map.mpr ⟨x, hx, hxf⟩)
      rw [fvmFold_get_of_not_mem rest _ a.field hrest]
      exact Obj.get_set_self init a.field a.validator
    · exact ih (Obj.set init b.field b.validator) hnd.2 hr

theorem emptyAdvancedSettings_get_of_mem (adv : List AdvancedSetting)
    (a : AdvancedSetting) (ha : a ∈ adv) :
    Obj.get (emptyAdvancedSettings adv) a.field = some "" := by
  induction adv with
  | nil => cases ha
  | cons b rest ih =>
    rcases List.mem_cons.mp ha with he | hr
    · unfold emptyAdvancedSettings
      rw [List.map_cons, Obj.get_cons, he]
      simp
    · unfold emptyAdvancedSettings at ih ⊢
      rw [List.map_cons, Obj.get_cons]
      by_cases hb : b.field = a.field
      · simp [hb]
      · simp only [hb, if_false]
        exact ih hr

theorem emptyAdvancedSettings_get_of_not_mem (adv : List AdvancedSetting)
    (k : String) (h : ∀ a ∈ adv, a.field ≠ k) :
    Obj.get (emptyAdvancedSettings adv) k = none := by
  rw [Obj.get_eq_none_iff]
  intro p hp
  unfold emptyAdvancedSettings at hp
  obtain ⟨a, ha, hap⟩ := List.mem_map.mp hp
  rw [← hap]
  exact h a ha

theorem Obj.get_eq_none_of_hasKey_false {V : Type} {o : Obj V} {k : String}
    (h : Obj.hasKey o k = false) : Obj.get o k = none := by
  cases hg : Obj.get o k with
  | none => rfl
  | some v => simp [Obj.hasKey, hg] at h

theorem bcFold_get_of_not_mem (fields : Obj String) (adv : List AdvancedSetting)
    (acc : Obj String) (k : String) (h : ∀ a ∈ adv, a.field ≠ k) :
    Obj.get (adv.foldl (fun cache a =>
      match Obj.get fields a.field with
      | some value => if value = "" then cache else Obj.set cache a.field value
      | none => cache) acc) k = Obj.get acc k := by
  induction adv generalizing acc with
  | nil => rfl
  | cons b rest ih =>
    rw [List.foldl_cons, ih _ fun x hx => h x (List.mem_cons_of_mem b hx)]
    have hb := h b (List.mem_cons_self b rest)
    cases hf : Obj.get fields b.field with
    | none => simp [hf]
    | some value =>
      simp only [hf]
      by_cases hvv : value = ""
      · simp [hvv]
      · rw [if_neg hvv]
        exact Obj.get_set_ne acc b.field k value (Ne.symm hb)

theorem bcFold_get_nonempty (fields : Obj String) (adv : List AdvancedSetting)
    (acc : Obj String) (a : AdvancedSetting) (v : String)
    (hnd : (adv.map AdvancedSetting.field).Nodup) (ha : a ∈ adv)
    (hv : Obj.get fields a.field = some v) (hne : v ≠ "") :
    Obj.get (adv.foldl (fun cache x =>
      match Obj.get fields x.field with
      | some value => if value = "" then cache else Obj.set cache x.field value
      | none => cache) acc) a.field = some v := by
  induction adv generalizing acc with
  | nil => cases ha
  | cons b rest ih =>
    rw [List.map_cons, List.nodup_cons] at hnd
    rw [List.foldl_cons]
    rcases List.mem_cons.mp ha with he | hr
    · subst he
      have hrest : ∀ x ∈ rest, x.field ≠ a.field := fun x hx hxf =>
        hnd.1 (List.mem_map.mpr ⟨x, hx, hxf⟩)
      rw [bcFold_get_of_not_mem fields rest _ a.field hrest]
      simp only [hv]
      rw [if_neg hne]
      exact Obj.get_set_self acc a.field v
    · exact ih _ hnd.2 hr

theorem bcFold_get_empty (fields : Obj String) (adv : List AdvancedSetting)
    (acc : Obj String) (a : AdvancedSetting)
    (hnd : (adv.map AdvancedSetting.field).Nodup) (ha : a ∈ adv)
    (hv : Obj.get fields a.field = some "") :
    Obj.get (adv.foldl (fun cache x =>
      match Obj.get fields x.field with
      | some value => if value = "" then cache else Obj.set cache x.field value
      | none => cache) acc) a.field = Obj.get acc a.field := by
  induction adv generalizing acc with
  | nil => cases ha
  | cons b rest ih =>
    rw [List.map_cons, List.nodup_cons] at hnd
    rw [List.foldl_cons]
    rcases List.mem_cons.mp ha with he | hr
    · subst he
      have hrest : ∀ x ∈ rest, x.field ≠ a.field := fun x hx hxf =>
        hnd.1 (List.mem_map.mpr ⟨x, hx, hxf⟩)
      rw [bcFold_get_of_not_mem fields rest _ a.field hrest]
      simp [hv]
    · have hbf : b.field ≠ a.field := by
        intro hbe
        exact hnd.1 (by
          rw [hbe]
          exact List.mem_map.mpr ⟨a, hr, rfl⟩)
      rw [ih _ hnd.2 hr]
      cases hf : Obj.get fields b.field with
      | none => simp [hf]
      | some value =>
        simp only [hf]
        by_cases hvv : value = ""
        · simp [hvv]
        · rw [if_neg hvv]
          exact Obj.get_set_ne acc b.field a.field value (Ne.symm hbf)

/-! ## Claim theorems -/

/-- Claim C1: `sendForm()` invokes the `saveFollowerIndex` callback if and
only if every tracked field error is undefined or null; when it does, it
passes the `name` value first and, second, the remaining fields of the
follower-index record with no `name` key present; otherwise it returns
without calling the callback. -/
theorem sendForm_save_spec (s : FormState) :
    ((sendForm s).2.isSome = true ↔
      s.fieldsErrors.all (fun p => p.2.isNone) = true) ∧
    (s.fieldsErrors.all (fun p => p.2.isNone) = true →
      (sendForm s).2 =
        some (Obj.get s.followerIndex "name", Obj.removeKey s.followerIndex "name") ∧
      Obj.hasKey (Obj.removeKey s.followerIndex "name") "name" = false ∧
      ∀ k, k ≠ "name" →
        Obj.get (Obj.removeKey s.followerIndex "name") k =
          Obj.get s.followerIndex k) := by
  have hval : isFormValid s = s.fieldsErrors.all (fun p => p.2.isNone) := rfl
  constructor
  · constructor
    · intro h
      rw [← hval]
      by_cases hv : isFormValid s = true
      · exact hv
      · exfalso
        simp [sendForm, hv] at h
    · intro h
      have hv : isFormValid s = true := by rw [hval]; exact h
      simp [sendForm, hv]
  · intro h
    have hv : isFormValid s = true := by rw [hval]; exact h
    exact ⟨by simp [sendForm, hv], Obj.hasKey_removeKey_self _ _,
      fun k hk => Obj.get_removeKey_ne _ _ _ hk⟩

/-- Witness for C1 at a concrete valid form state. -/
theorem sendForm_save_spec_witness :
    (sendForm sampleState).2 =
      some (some "orders-follower", Obj.removeKey sampleState.followerIndex "name") ∧
    Obj.hasKey (Obj.removeKey sampleState.followerIndex "name") "name" = false := by
  have h := (sendForm_save_spec sampleState).2 (by decide)
  refine ⟨?_, h.2.1⟩
  rw [h.1]
  decide

/-- Claim C2 (divergence): the catch block of `validateIndexName` invokes the
fatal-error reporter on every rejection, including one that carries a
structured `error.data` payload, because the structured-payload branch lacks
an early return; the indicator is still cleared in that branch. -/
theorem validateIndexNameFailure_always_fatal (s : FormState) (error : JsError) :
    (validateIndexNameFailure s error).2 = true ∧
    (validateIndexNameFailure s { hasData := true }).1.isValidatingIndexName = false :=
  ⟨rfl, rfl⟩

/-- Claim C9: `sendForm()` always sets `areErrorsVisible` to the negation of
the validity of the form, so a successful submit resets a previously raised
flag. -/
theorem sendForm_errors_visibility (s : FormState) :
    (sendForm s).1.areErrorsVisible = !(isFormValid s) := by
  cases h : isFormValid s <;> simp [sendForm, h]

/-- Claim C10: error updates are merge-based; any key absent from the errors
update keeps its stored value, and therefore an `onFieldsChange` touching
only other fields leaves the stored error of an outside field unchanged. -/
theorem updateFormErrors_frame (errors old : Obj (Option ErrorDesc))
    (vmap : Obj Validator) (b : Bool) (s : FormState) (u : Obj String) (k : String)
    (h1 : Obj.hasKey errors k = false) (h2 : Obj.hasKey u k = false) :
    Obj.get (updateFormErrors errors old) k = Obj.get old k ∧
    Obj.get (onFieldsChange vmap b s u).1.fieldsErrors k =
      Obj.get s.fieldsErrors k := by
  constructor
  · unfold updateFormErrors
    exact Obj.get_merge_of_eq_none old errors k (Obj.get_eq_none_of_hasKey_false h1)
  · rw [onFieldsChange_fst_fieldsErrors]
    have hg : Obj.get (getFieldsErrors vmap (Obj.merge [] u)) k = none := by
      rw [Obj.merge_nil_left]
      unfold getFieldsErrors
      rw [gfeFold_get_of_fields_none vmap u [] k (Obj.get_eq_none_of_hasKey_false h2)]
      rfl
    exact Obj.get_merge_of_eq_none _ _ k hg

/-- Witness for C10 at concrete objects: a `leaderIndex`-only update leaves
the stored `name` entry untouched. -/
theorem updateFormErrors_frame_witness :
    Obj.get (updateFormErrors [("leaderIndex", some indexAlreadyExistsError)]
      [("name", (none : Option ErrorDesc))]) "name" = some none ∧
    Obj.get (onFieldsChange sampleVmap false sampleState
      [("leaderIndex", "orders")]).1.fieldsErrors "name" =
      Obj.get sampleState.fieldsErrors "name" := by
  have h := updateFormErrors_frame [("leaderIndex", some indexAlreadyExistsError)]
    [("name", (none : Option ErrorDesc))] sampleVmap false sampleState
    [("leaderIndex", "orders")] "name" (by decide) (by decide)
  refine ⟨?_, h.2⟩
  rw [h.1]
  decide

/-- Claim C4: `onFieldsChange(partialFields)` overwrites the record with the
partial update, recomputes errors for exactly the fields present in the
merged update (which coincides with the partial update, the state having no
`fields` key) through the fixed field-to-validator table, assigns no error
to a field with no registered validator (so such a field keeps its stored
error state and an error-free field stays error-free), and reports the
`clearApiError` invocation exactly when an api error is pending. -/
theorem onFieldsChange_spec (inv lv : Validator) (adv : List AdvancedSetting)
    (vmap : Obj Validator) (hv : vmap = fieldToValidatorMap inv lv adv)
    (b : Bool) (s : FormState) (u : Obj String)
    (hnd : (u.map Prod.fst).Nodup) :
    (∀ k v, Obj.get u k = some v →
      Obj.get (onFieldsChange vmap b s u).1.followerIndex k = some v) ∧
    (∀ k, Obj.get u k = none →
      Obj.get (onFieldsChange vmap b s u).1.followerIndex k =
        Obj.get s.followerIndex k) ∧
    (∀ k v f, Obj.get u k = some v → Obj.get vmap k = some f →
      Obj.get (onFieldsChange vmap b s u).1.fieldsErrors k = some (f v)) ∧
    (∀ k, Obj.get vmap k = none →
      Obj.get (onFieldsChange vmap b s u).1.fieldsErrors k =
        Obj.get s.fieldsErrors k) ∧
    (∀ k, Obj.get u k = none →
      Obj.get (onFieldsChange vmap b s u).1.fieldsErrors k =
        Obj.get s.fieldsErrors k) ∧
    ((∀ a ∈ adv, a.field ≠ "name") → Obj.get vmap "name" = some inv) ∧
    ((∀ a ∈ adv, a.field ≠ "leaderIndex") →
      Obj.get vmap "leaderIndex" = some lv) ∧
    (onFieldsChange vmap b s u).2 = b := by
  refine ⟨?_, ?_, ?_, ?_, ?_, ?_, ?_, rfl⟩
  · intro k v h
    rw [onFieldsChange_fst_followerIndex]
    rw [Obj.get_merge_of_isSome _ _ _ (by rw [h]; rfl), h]
  · intro k h
    rw [onFieldsChange_fst_followerIndex]
    exact Obj.get_merge_of_eq_none _ _ _ h
  · intro k v f hu hf
    rw [onFieldsChange_fst_fieldsErrors]
    have hg : Obj.get (getFieldsErrors vmap (Obj.merge [] u)) k = some (f v) := by
      rw [Obj.merge_nil_left]
      unfold getFieldsErrors
      exact gfeFold_get_of_mem vmap u [] k v f hnd (Obj.mem_of_get_eq_some hu) hf
    rw [Obj.get_merge_of_isSome _ _ _ (by rw [hg]; rfl), hg]
  · intro k h
    rw [onFieldsChange_fst_fieldsErrors]
    have hg : Obj.get (getFieldsErrors vmap (Obj.merge [] u)) k = none := by
      rw [Obj.merge_nil_left]
      unfold getFieldsErrors
      rw [gfeFold_get_of_vmap_none vmap u [] k h]
      rfl
    exact Obj.get_merge_of_eq_none _ _ _ hg
  · intro k h
    rw [onFieldsChange_fst_fieldsErrors]
    have hg : Obj.get (getFieldsErrors vmap (Obj.merge [] u)) k = none := by
      rw [Obj.merge_nil_left]
      unfold getFieldsErrors
      rw [gfeFold_get_of_fields_none vmap u [] k h]
      rfl
    exact Obj.get_merge_of_eq_none _ _ _ hg
  · intro hn
    rw [hv]
    unfold fieldToValidatorMap
    rw [fvmFold_get_of_not_mem adv _ "name" hn, Obj.get_cons, if_pos rfl]
  · intro hn
    rw [hv]
    unfold fieldToValidatorMap
    rw [fvmFold_get_of_not_mem adv _ "leaderIndex" hn]
    rfl

/-- Witness for C4: an edit of `name` to the empty value stores the error
produced by the registered name validator, and the clear-api-error flag is
forwarded. -/
theorem onFieldsChange_spec_witness :
    Obj.get (onFieldsChange sampleVmap true sampleState
      [("name", "")]).1.fieldsErrors "name" = some (requiredValidator "") ∧
    (onFieldsChange sampleVmap true sampleState [("name", "")]).2 = true := by
  have h := onFieldsChange_spec requiredValidator requiredValidator [advMax]
    sampleVmap rfl true sampleState [("name", "")] (by decide)
  refine ⟨?_, h.2.2.2.2.2.2.2⟩
  exact h.2.2.1 "name" "" requiredValidator rfl
    (h.2.2.2.2.2.1 (by decide))

/-- Claim C5: on successful completion of the asynchronous name check, a
match in the fetched index list stores an always-visible error descriptor
under the `name` key, and the validating indicator ends `false` whether or
not a match was found. -/
theorem validateIndexNameSuccess_spec (s : FormState) (name : String)
    (indices : List IndexEntry) :
    (validateIndexNameSuccess s name indices).isValidatingIndexName = false ∧
    ((indices.any fun index => index.name = name) = true →
      Obj.get (validateIndexNameSuccess s name indices).fieldsErrors "name" =
        some (some indexAlreadyExistsError)) ∧
    indexAlreadyExistsError.alwaysVisible = true := by
  refine ⟨?_, ?_, rfl⟩
  · unfold validateIndexNameSuccess
    cases h : indices.any fun index => index.name = name <;> simp [h]
  · intro h
    have hferr : (validateIndexNameSuccess s name indices).fieldsErrors =
        Obj.merge s.fieldsErrors [("name", some indexAlreadyExistsError)] := by
      unfold validateIndexNameSuccess updateFormErrors
      simp [h]
    rw [hferr, Obj.get_merge_of_isSome _ _ _ (by rfl)]
    rfl

/-- Witness for C5 at a concrete colliding name. -/
theorem validateIndexNameSuccess_spec_witness :
    (validateIndexNameSuccess sampleState "orders-follower"
      [{ name := "orders-follower" }]).isValidatingIndexName = false ∧
    Obj.get (validateIndexNameSuccess sampleState "orders-follower"
      [{ name := "orders-follower" }]).fieldsErrors "name" =
      some (some indexAlreadyExistsError) := by
  have h := validateIndexNameSuccess_spec sampleState "orders-follower"
    [{ name := "orders-follower" }]
  exact ⟨h.1, h.2.1 (by decide)⟩

/-- Claim C6: `onIndexNameChange` ends with the validating indicator `false`
and no scheduled check when the name is empty or whitespace-only, and with
the indicator `true` and a scheduled check otherwise. -/
theorem onIndexNameChange_spec (vmap : Obj Validator) (b : Bool) (s : FormState)
    (name : String) :
    (isBlankName name = true →
      (onIndexNameChange vmap b s name).1.isValidatingIndexName = false ∧
      (onIndexNameChange vmap b s name).2.2 = false) ∧
    (isBlankName name = false →
      (onIndexNameChange vmap b s name).1.isValidatingIndexName = true ∧
      (onIndexNameChange vmap b s name).2.2 = true) := by
  constructor
  · intro h
    unfold onIndexNameChange
    simp [h]
  · intro h
    unfold onIndexNameChange
    simp [h]

/-- Witness for C6 at a whitespace-only and at a non-blank name. -/
theorem onIndexNameChange_spec_witness :
    (onIndexNameChange sampleVmap false sampleState "   ").1.isValidatingIndexName
      = false ∧
    (onIndexNameChange sampleVmap false sampleState "   ").2.2 = false ∧
    (onIndexNameChange sampleVmap false sampleState "orders").1.isValidatingIndexName
      = true ∧
    (onIndexNameChange sampleVmap false sampleState "orders").2.2 = true := by
  have h1 := (onIndexNameChange_spec sampleVmap false sampleState "   ").1
    (by decide)
  have h2 := (onIndexNameChange_spec sampleVmap false sampleState "orders").2
    (by decide)
  exact ⟨h1.1, h1.2, h2.1, h2.2⟩

/-- Claim C7: at construction the form is in new mode exactly when no
existing record is supplied; in new mode the record is the empty defaults
with `remoteCluster` seeded from the query-string cluster parameter and
advanced settings start hidden; with an existing record the record is the
empty defaults overwritten by the supplied record and advanced settings
start visible; in both modes initial field errors are computed eagerly from
the seeded record. -/
theorem initForm_spec (adv : List AdvancedSetting) (vmap : Obj Validator)
    (remoteClusters : List RemoteCluster) (clusterParam : Option String)
    (existing : Option (Obj String))
    (hadv : ∀ a ∈ adv, a.field ≠ "remoteCluster") :
    ((initForm vmap adv remoteClusters clusterParam existing).isNew =
      existing.isNone) ∧
    (existing = none →
      (initForm vmap adv remoteClusters clusterParam existing).followerIndex =
        getEmptyFollowerIndex adv (getRemoteClusterName remoteClusters clusterParam) ∧
      Obj.get (initForm vmap adv remoteClusters clusterParam existing).followerIndex
        "remoteCluster" = some (getRemoteClusterName remoteClusters clusterParam) ∧
      (initForm vmap adv remoteClusters clusterParam
        existing).areAdvancedSettingsVisible = false) ∧
    (∀ record, existing = some record →
      (initForm vmap adv remoteClusters clusterParam existing).followerIndex =
        Obj.merge (getEmptyFollowerIndex adv) record ∧
      (initForm vmap adv remoteClusters clusterParam
        existing).areAdvancedSettingsVisible = true) ∧
    (initForm vmap adv remoteClusters clusterParam existing).fieldsErrors =
      getFieldsErrors vmap
        (initForm vmap adv remoteClusters clusterParam existing).followerIndex := by
  refine ⟨?_, ?_, ?_, ?_⟩
  · cases existing <;> rfl
  · intro h
    subst h
    refine ⟨rfl, ?_, rfl⟩
    show Obj.get (getEmptyFollowerIndex adv
      (getRemoteClusterName remoteClusters clusterParam)) "remoteCluster" =
      some (getRemoteClusterName remoteClusters clusterParam)
    unfold getEmptyFollowerIndex
    rw [Obj.get_merge_of_eq_none _ _ _
      (emptyAdvancedSettings_get_of_not_mem adv _ hadv)]
    rfl
  · intro record h
    subst h
    exact ⟨rfl, rfl⟩
  · cases existing <;> rfl

/-- Witness for C7 at a concrete new-mode construction. -/
theorem initForm_spec_witness :
    (initForm sampleVmap [advMax] [{ name := "cluster-a", isConnected := true }]
      (some "cluster-a") none).isNew = true ∧
    Obj.get (initForm sampleVmap [advMax]
      [{ name := "cluster-a", isConnected := true }] (some "cluster-a")
      none).followerIndex "remoteCluster" = some "cluster-a" ∧
    (initForm sampleVmap [advMax] [{ name := "cluster-a", isConnected := true }]
      (some "cluster-a") none).areAdvancedSettingsVisible = false := by
  have h := initForm_spec [advMax] sampleVmap
    [{ name := "cluster-a", isConnected := true }] (some "cluster-a") none
    (by decide)
  have h2 := h.2.1 rfl
  refine ⟨h.1, ?_, h2.2.2⟩
  rw [h2.2.1]
  decide

/-- Claim C8: with a 404 api error the rendered submission-level error is a
rewritten descriptor whose message cites the current `leaderIndex` value;
any other status renders the api error unmodified; without an api error no
error section is rendered. -/
theorem renderApiErrors_spec (e : ApiError) (s : FormState) :
    renderApiErrors none s = none ∧
    (e.status = 404 →
      renderApiErrors (some e) s =
        some (RenderedApiError.rewritten (leaderIndexNotFoundMessage
          ((Obj.get s.followerIndex "leaderIndex").getD "")))) ∧
    (e.status ≠ 404 →
      renderApiErrors (some e) s = some (RenderedApiError.original e)) ∧
    (∀ l : String, ∃ pre post, leaderIndexNotFoundMessage l = pre ++ l ++ post) := by
  refine ⟨rfl, ?_, ?_, ?_⟩
  · intro h
    unfold renderApiErrors
    simp [h]
  · intro h
    unfold renderApiErrors
    simp [h]
  · intro l
    exact ⟨"The leader index ",
      " you want to replicate from does not exist.", rfl⟩

/-- Witness for C8 at concrete api errors. -/
theorem renderApiErrors_spec_witness :
    renderApiErrors (some { status := 404, payload := "err" }) sampleState =
      some (RenderedApiError.rewritten (leaderIndexNotFoundMessage "orders")) ∧
    renderApiErrors (some { status := 500, payload := "err" }) sampleState =
      some (RenderedApiError.original { status := 500, payload := "err" }) := by
  have h404 := (renderApiErrors_spec { status := 404, payload := "err" }
    sampleState).2.1 rfl
  have h500 := (renderApiErrors_spec { status := 500, payload := "err" }
    sampleState).2.2.1 (by decide)
  constructor
  · rw [h404]
    decide
  · exact h500

/-- Claim C3: from a state with advanced settings visible, toggling twice
with no edits in between restores every advanced field that held a non-empty
value to its exact pre-hide value, leaves every advanced field that held the
empty sentinel at the empty sentinel, and clears the cache on restore. -/
theorem toggleAdvancedSettings_roundtrip (vmap : Obj Validator)
    (adv : List AdvancedSetting) (b1 b2 : Bool) (s : FormState)
    (hvis : s.areAdvancedSettingsVisible = true)
    (hnd : (adv.map AdvancedSetting.field).Nodup) :
    (∀ a ∈ adv, ∀ v : String, Obj.get s.followerIndex a.field = some v → v ≠ "" →
      Obj.get (toggleAdvancedSettings vmap adv b2
        (toggleAdvancedSettings vmap adv b1 s).1).1.followerIndex a.field =
        some v) ∧
    (∀ a ∈ adv, Obj.get s.followerIndex a.field = some "" →
      Obj.get (toggleAdvancedSettings vmap adv b2
        (toggleAdvancedSettings vmap adv b1 s).1).1.followerIndex a.field =
        some "") ∧
    (toggleAdvancedSettings vmap adv b2
      (toggleAdvancedSettings vmap adv b1 s).1).1.cachedAdvancedSettings = [] := by
  have e1 : (toggleAdvancedSettings vmap adv b1 s).1 =
      { (onFieldsChange vmap b1 s (emptyAdvancedSettings adv)).1 with
        areAdvancedSettingsVisible := false,
        cachedAdvancedSettings := buildAdvancedCache adv s.followerIndex } := by
    unfold toggleAdvancedSettings
    rw [if_pos hvis]
  have hfi : (toggleAdvancedSettings vmap adv b2
      (toggleAdvancedSettings vmap adv b1 s).1).1.followerIndex =
      Obj.merge (Obj.merge s.followerIndex (emptyAdvancedSettings adv))
        (buildAdvancedCache adv s.followerIndex) := by
    rw [e1]
    unfold toggleAdvancedSettings
    simp [onFieldsChange_fst_followerIndex]
  have hcache : (toggleAdvancedSettings vmap adv b2
      (toggleAdvancedSettings vmap adv b1 s).1).1.cachedAdvancedSettings = [] := by
    rw [e1]
    unfold toggleAdvancedSettings
    simp
  refine ⟨?_, ?_, hcache⟩
  · intro a ha v hv hne
    have hc : Obj.get (buildAdvancedCache adv s.followerIndex) a.field = some v := by
      unfold buildAdvancedCache
      exact bcFold_get_nonempty s.followerIndex adv [] a v hnd ha hv hne
    rw [hfi, Obj.get_merge_of_isSome _ _ _ (by rw [hc]; rfl), hc]
  · intro a ha hv
    have hc : Obj.get (buildAdvancedCache adv s.followerIndex) a.field = none := by
      unfold buildAdvancedCache
      rw [bcFold_get_empty s.followerIndex adv [] a hnd ha hv]
      rfl
    rw [hfi, Obj.get_merge_of_eq_none _ _ _ hc,
      Obj.get_merge_of_isSome _ _ _
        (by rw [emptyAdvancedSettings_get_of_mem adv a ha]; rfl),
      emptyAdvancedSettings_get_of_mem adv a ha]

/-- Witness for C3: the non-empty sample advanced value survives the
hide-show roundtrip, the empty sample value stays empty, and the cache ends
cleared. -/
theorem toggleAdvancedSettings_roundtrip_witness :
    Obj.get (toggleAdvancedSettings sampleVmap [advMax] false
      (toggleAdvancedSettings sampleVmap [advMax] false
        sampleState).1).1.followerIndex "maxReadRequestOperationCount" =
      some "42" ∧
    (toggleAdvancedSettings sampleVmap [advMax] false
      (toggleAdvancedSettings sampleVmap [advMax] false
        sampleState).1).1.cachedAdvancedSettings = [] ∧
    Obj.get (toggleAdvancedSettings sampleVmap [advMax] false
      (toggleAdvancedSettings sampleVmap [advMax] false
        sampleStateEmptyAdv).1).1.followerIndex "maxReadRequestOperationCount" =
      some "" := by
  have h1 := toggleAdvancedSettings_roundtrip sampleVmap [advMax] false false
    sampleState rfl (by decide)
  have h2 := toggleAdvancedSettings_roundtrip sampleVmap [advMax] false false
    sampleStateEmptyAdv rfl (by decide)
  exact ⟨h1.1 advMax (List.mem_singleton.mpr rfl) "42" (by decide) (by decide),
    h1.2.2, h2.2.1 advMax (List.mem_singleton.mpr rfl) (by decide)⟩
